import Mathlib

/-!
Verification of the signal-generation and trade-lifecycle core of the
`trading-bot` repository, shallowly embedded in Lean 4.

Conventions of the embedding:
* Go `float64` values are modelled as exact rationals (`ℚ`); all arithmetic
  is exact.
* Go `math.Sqrt` is modelled by `sqrtQ`, which returns the exact nonnegative
  square root whenever its argument is the square of a rational (this holds
  at every concrete input evaluated below); theorems that quantify over
  arbitrary market data never depend on the values `sqrtQ` returns.
* Go maps are modelled as association lists with unique keys; map iteration
  order is modelled by list order (no property proved here depends on it
  beyond the uniqueness invariants stated explicitly).
* Timestamps, generated-at fields and time-based identifier generation are
  elided or passed in as explicit parameters: identifiers produced by
  `fmt.Sprintf(... time.Now().UnixNano())` become explicit `String`
  arguments, universally quantified, which over-approximates the code's
  behaviour.  Formatted human-readable message strings keep their static
  prefix; formatted numeric parts are elided.
-/

/-- Models Go `math.Sqrt` on the rational embedding of `float64`: for an
argument that is the square of a rational number (the case at every concrete
input in this file) it returns the exact nonnegative square root. -/
def sqrtQ (q : ℚ) : ℚ :=
  (Nat.sqrt q.num.toNat : ℚ) / (Nat.sqrt q.den : ℚ)

/-- Signal type from `pkg/signal` (`BUY`, `SELL`, `HOLD`). -/
inductive SignalType where
  | BUY
  | SELL
  | HOLD
deriving DecidableEq

export SignalType (BUY SELL HOLD)

/-- `config.VolatilityConfig` from `pkg/config/config.go`. -/
structure VolatilityConfig where
  minVolatilityPercent : ℚ
  minExpectedROI : ℚ
  stopLossPercent : ℚ
  bollingerPeriod : Nat
  bollingerDeviation : ℚ
  rsiPeriod : Nat
  rsiOverbought : ℚ
  rsiOversold : ℚ
  volumeThreshold : ℚ
  confidenceThreshold : ℚ
deriving DecidableEq

/-- `signal.MarketData` (timestamps elided; they are never read by the
signal-generation code). -/
structure MarketData where
  symbol : String
  prices : List ℚ
  volumes : List ℚ
deriving DecidableEq

/-- The indicator map built by `calculateTechnicalIndicators`.  The Go code
uses a `map[string]float64` with exactly the keys `price`, `sma`,
`upper_band`, `lower_band`, `rsi`, `volume_ratio`, `price_change`; it is
modelled as a structure with one field per key. -/
structure TechnicalData where
  price : ℚ
  sma : ℚ
  upperBand : ℚ
  lowerBand : ℚ
  rsi : ℚ
  volumeRatio : ℚ
  priceChange : ℚ
deriving DecidableEq

/-- `signal.Signal` (id, generation time and rationale elided: the id and
time are produced from the wall clock, and the rationale is left empty by
the generator). -/
structure Signal where
  symbol : String
  typ : SignalType
  price : ℚ
  targetPrice : ℚ
  stopLoss : ℚ
  expectedROI : ℚ
  confidence : ℚ
  timeFrame : String
  status : String
  technicalData : TechnicalData
deriving DecidableEq

/-- `calculateSMA`: mean of the last `period` values, `0` when fewer than
`period` values are available. -/
def calculateSMA (values : List ℚ) (period : Nat) : ℚ :=
  if values.length < period then 0
  else ((values.drop (values.length - period)).sum) / (period : ℚ)

/-- `calculateStdDev`: population standard deviation of the last `period`
values, `0` when fewer than `period` values are available. -/
def calculateStdDev (values : List ℚ) (period : Nat) : ℚ :=
  if values.length < period then 0
  else
    let sma := calculateSMA values period
    let sumSquaredDiff :=
      ((values.drop (values.length - period)).map (fun v => (v - sma) * (v - sma))).sum
    sqrtQ (sumSquaredDiff / (period : ℚ))

/-- `calculateRSI`: relative-strength index over the last `period` price
changes; `50` (neutral) when fewer than `period + 1` prices are available,
`100` when there are no losses. -/
def calculateRSI (prices : List ℚ) (period : Nat) : ℚ :=
  if prices.length < period + 1 then 50
  else
    let window := prices.drop (prices.length - (period + 1))
    let changes := List.zipWith (fun b a => b - a) window.tail window
    let gains := (changes.filter (fun c => decide (0 ≤ c))).sum
    let losses := -((changes.filter (fun c => decide (c < 0))).sum)
    if losses = 0 then 100
    else
      let rs := gains / losses
      100 - 100 / (1 + rs)

/-- `calculatePriceChange`: percentage change between the two most recent
prices, `0` when fewer than two prices are available. -/
def calculatePriceChange (prices : List ℚ) : ℚ :=
  if prices.length < 2 then 0
  else
    let current := prices.getD (prices.length - 1) 0
    let previous := prices.getD (prices.length - 2) 0
    (current - previous) / previous * 100

/-- `calculateTechnicalIndicators` from `pkg/signal`. -/
def calculateTechnicalIndicators (data : MarketData) (params : VolatilityConfig)
    (currentPrice : ℚ) : TechnicalData :=
  let sma := calculateSMA data.prices params.bollingerPeriod
  let stdDev := calculateStdDev data.prices params.bollingerPeriod
  let upperBand := sma + params.bollingerDeviation * stdDev
  let lowerBand := sma - params.bollingerDeviation * stdDev
  let rsi := calculateRSI data.prices params.rsiPeriod
  let avgVolume := calculateSMA data.volumes 10
  let currentVolume := data.volumes.getD (data.volumes.length - 1) 0
  let volumeRatio := currentVolume / avgVolume * 100
  let priceChange := calculatePriceChange data.prices
  { price := currentPrice, sma := sma, upperBand := upperBand,
    lowerBand := lowerBand, rsi := rsi, volumeRatio := volumeRatio,
    priceChange := priceChange }

/-- `calculateVolatilityScore` from `pkg/signal`. -/
def calculateVolatilityScore (indicators : TechnicalData)
    (params : VolatilityConfig) : ℚ :=
  (if indicators.price > indicators.upperBand * (98 / 100) ∨
      indicators.price < indicators.lowerBand * (102 / 100) then (3 : ℚ) / 10 else 0)
  + (if indicators.rsi > params.rsiOverbought ∨
       indicators.rsi < params.rsiOversold then (1 : ℚ) / 4 else 0)
  + (if indicators.volumeRatio > params.volumeThreshold then (1 : ℚ) / 4 else 0)
  + (if |indicators.priceChange| > params.minVolatilityPercent then (1 : ℚ) / 5 else 0)

/-- `determineSignalType` from `pkg/signal`: bullish check first, then
bearish check, otherwise `HOLD`. -/
def determineSignalType (indicators : TechnicalData) : SignalType :=
  if (indicators.price < indicators.lowerBand * (102 / 100) ∧ indicators.rsi < 30) ∨
     (indicators.priceChange > 0 ∧ indicators.rsi > 50 ∧ indicators.rsi < 70) then BUY
  else if (indicators.price > indicators.upperBand * (98 / 100) ∧ indicators.rsi > 70) ∨
          (indicators.priceChange < 0 ∧ indicators.rsi < 50 ∧ indicators.rsi > 30) then SELL
  else HOLD

/-- `calculatePriceLevels` from `pkg/signal`: returns
`(targetPrice, stopLoss)`. -/
def calculatePriceLevels (currentPrice : ℚ) (signalType : SignalType)
    (indicators : TechnicalData) (params : VolatilityConfig) : ℚ × ℚ :=
  if signalType = BUY then
    (min indicators.upperBand (currentPrice * (1 + params.minExpectedROI / 100)),
     max indicators.lowerBand (currentPrice * (1 - params.stopLossPercent / 100)))
  else
    (max indicators.lowerBand (currentPrice * (1 - params.minExpectedROI / 100)),
     min indicators.upperBand (currentPrice * (1 + params.stopLossPercent / 100)))

/-- `calculateExpectedROI` from `pkg/signal`. -/
def calculateExpectedROI (currentPrice targetPrice : ℚ)
    (signalType : SignalType) : ℚ :=
  if signalType = BUY then (targetPrice - currentPrice) / currentPrice * 100
  else (currentPrice - targetPrice) / currentPrice * 100

/-- `Generator.analyzeVolatilityPatterns`: the `( *Signal, bool)` result is
modelled as `Option Signal`.  The Go code reads `Prices[len-1]` (callers
guarantee a nonempty series); the embedding uses `getD` with default `0`. -/
def analyzeVolatilityPatterns (cfg : VolatilityConfig) (symbol : String)
    (data : MarketData) : Option Signal :=
  let currentPrice := data.prices.getD (data.prices.length - 1) 0
  let technicalData := calculateTechnicalIndicators data cfg currentPrice
  let volatilityScore := calculateVolatilityScore technicalData cfg
  if volatilityScore < cfg.confidenceThreshold then none
  else
    let signalType := determineSignalType technicalData
    if signalType = HOLD then none
    else
      let levels := calculatePriceLevels currentPrice signalType technicalData cfg
      let expectedROI := calculateExpectedROI currentPrice levels.1 signalType
      if expectedROI < cfg.minExpectedROI then none
      else
        some { symbol := symbol, typ := signalType, price := currentPrice,
               targetPrice := levels.1, stopLoss := levels.2,
               expectedROI := expectedROI, confidence := volatilityScore,
               timeFrame := "1-3 hours", status := "ACTIVE",
               technicalData := technicalData }

/-- `Generator.GenerateSignals`: the `map[string]MarketData` argument is
modelled as an association list; instruments with fewer than 30 price or
volume samples are skipped. -/
def generateSignals (cfg : VolatilityConfig)
    (marketData : List (String × MarketData)) : List Signal :=
  marketData.filterMap (fun p =>
    if p.2.prices.length < 30 ∨ p.2.volumes.length < 30 then none
    else analyzeVolatilityPatterns cfg p.1 p.2)

/-- Configuration used by the concrete evaluations below: Bollinger window
of 2 with deviation multiplier 1/2, RSI window of 1, minimum expected ROI
10%, stop-loss width 5%, confidence threshold 0. -/
def cfgC1 : VolatilityConfig :=
  { minVolatilityPercent := 1000, minExpectedROI := 10, stopLossPercent := 5,
    bollingerPeriod := 2, bollingerDeviation := 1 / 2, rsiPeriod := 1,
    rsiOverbought := 70, rsiOversold := 30, volumeThreshold := 1000,
    confidenceThreshold := 0 }

/-- Market data used by the concrete evaluations below: thirty price
samples ending in a drop from 2 to 1, thirty constant volume samples. -/
def dataC1 : MarketData :=
  { symbol := "X", prices := List.replicate 28 2 ++ [2, 1],
    volumes := List.replicate 30 1 }

/-- The signal the generator emits on `cfgC1`/`dataC1`: a BUY at entry 1
with target 11/10 and stop 5/4 (the lower Bollinger band, which lies above
the entry). -/
def sigC1 : Signal :=
  { symbol := "X", typ := BUY, price := 1, targetPrice := 11 / 10,
    stopLoss := 5 / 4, expectedROI := 10, confidence := 11 / 20,
    timeFrame := "1-3 hours", status := "ACTIVE",
    technicalData :=
      { price := 1, sma := 3 / 2, upperBand := 7 / 4, lowerBand := 5 / 4,
        rsi := 0, volumeRatio := 100, priceChange := -50 } }

/-- Indicator values exhibiting the boundary case of the direction rule:
the price sits exactly at `lowerBand × 1.02` with an oversold RSI. -/
def indC6 : TechnicalData :=
  { price := 102 / 100, sma := 0, upperBand := 1000, lowerBand := 1,
    rsi := 20, volumeRatio := 0, priceChange := 0 }

example : sqrtQ (1 / 4) = 1 / 2 := by with_unfolding_all decide
example : calculateSMA [2, 1] 2 = 3 / 2 := by with_unfolding_all decide
example : calculateStdDev [2, 1] 2 = 1 / 2 := by with_unfolding_all decide
example : calculateRSI [2, 1] 1 = 0 := by with_unfolding_all decide
example : generateSignals cfgC1 [("X", dataC1)] = [sigC1] := by
  with_unfolding_all decide

/-- Inversion principle for `analyzeVolatilityPatterns`: every emitted
signal is built from the computed indicators, passed the HOLD filter and
passed the expected-ROI gate. -/
lemma analyzeVolatilityPatterns_some {cfg : VolatilityConfig} {symbol : String}
    {data : MarketData} {sig : Signal}
    (h : analyzeVolatilityPatterns cfg symbol data = some sig) :
    ∃ currentPrice technicalData signalType levels,
      currentPrice = data.prices.getD (data.prices.length - 1) 0 ∧
      technicalData = calculateTechnicalIndicators data cfg currentPrice ∧
      signalType = determineSignalType technicalData ∧
      signalType ≠ HOLD ∧
      levels = calculatePriceLevels currentPrice signalType technicalData cfg ∧
      ¬ calculateExpectedROI currentPrice levels.1 signalType < cfg.minExpectedROI ∧
      sig = { symbol := symbol, typ := signalType, price := currentPrice,
              targetPrice := levels.1, stopLoss := levels.2,
              expectedROI := calculateExpectedROI currentPrice levels.1 signalType,
              confidence := calculateVolatilityScore technicalData cfg,
              timeFrame := "1-3 hours", status := "ACTIVE",
              technicalData := technicalData } := by
  unfold analyzeVolatilityPatterns at h
  simp only at h
  split_ifs at h with h1 h2 h3
  have hR := Option.some.inj h
  subst hR
  exact ⟨_, _, _, _, rfl, rfl, rfl, h2, rfl, h3, rfl⟩

/-- Every signal found in the output of `generateSignals` comes from
`analyzeVolatilityPatterns` on an entry with at least 30 price and volume
samples. -/
lemma mem_generateSignals {cfg : VolatilityConfig}
    {entries : List (String × MarketData)} {sig : Signal}
    (h : sig ∈ generateSignals cfg entries) :
    ∃ p ∈ entries, ¬(p.2.prices.length < 30 ∨ p.2.volumes.length < 30) ∧
      analyzeVolatilityPatterns cfg p.1 p.2 = some sig := by
  obtain ⟨p, hp, hpeq⟩ := List.mem_filterMap.1 h
  by_cases hshort : p.2.prices.length < 30 ∨ p.2.volumes.length < 30
  · rw [if_pos hshort] at hpeq
    exact absurd hpeq (by simp)
  · rw [if_neg hshort] at hpeq
    exact ⟨p, hp, hshort, hpeq⟩

/-- In an association list with duplicate-free keys, a key determines its
value. -/
lemma value_eq_of_nodup_keys {α β : Type} {l : List (α × β)}
    (h : (l.map Prod.fst).Nodup) {k : α} {v w : β}
    (hv : (k, v) ∈ l) (hw : (k, w) ∈ l) : v = w := by
  induction l with
  | nil => cases hv
  | cons p rest ih =>
    rw [List.map_cons, List.nodup_cons] at h
    rcases List.mem_cons.1 hv with rfl | hv'
    · rcases List.mem_cons.1 hw with heq | hw'
      · exact (congrArg Prod.snd heq).symm
      · exact absurd (List.mem_map_of_mem Prod.fst hw') (by simpa using h.1)
    · rcases List.mem_cons.1 hw with rfl | hw'
      · exact absurd (List.mem_map_of_mem Prod.fst hv') (by simpa using h.1)
      · exact ih h.2 hv' hw'

/-- C1 (counterexample): on a 30-sample series ending in a drop from 2 to 1,
with Bollinger window 2, deviation multiplier 1/2, RSI window 1, minimum
expected ROI 10% and stop-loss width 5%, the generator emits a BUY signal
whose stop loss (the lower Bollinger band, 5/4) lies strictly ABOVE the
entry price 1, refuting `StopLoss < Price` for BUY signals. -/
theorem c1_counterexample :
    generateSignals cfgC1 [("X", dataC1)] = [sigC1] ∧
    sigC1.typ = BUY ∧ ¬ sigC1.stopLoss < sigC1.price := by
  exact ⟨by with_unfolding_all decide, rfl, by with_unfolding_all decide⟩

/-- C1 (amended): for every Signal emitted by `analyzeVolatilityPatterns`
with a positive entry price and a positive configured MinExpectedROI, the
target price is strictly on the profitable side of the entry (BUY:
Price < TargetPrice; SELL: TargetPrice < Price).  The stop-loss side of the
claimed ordering does not hold in general: when the entry price lies beyond
the Bollinger band on the adverse side, the stop loss is clamped to the
band and can fall on the wrong side of the entry. -/
theorem c1_target_side_ordering (cfg : VolatilityConfig) (symbol : String)
    (data : MarketData) (sig : Signal)
    (h : analyzeVolatilityPatterns cfg symbol data = some sig)
    (hp : 0 < sig.price) (hm : 0 < cfg.minExpectedROI) :
    (sig.typ = BUY → sig.price < sig.targetPrice) ∧
    (sig.typ = SELL → sig.targetPrice < sig.price) := by
  obtain ⟨cp, td, st, levels, -, -, -, -, -, hgate, hsig⟩ :=
    analyzeVolatilityPatterns_some h
  subst hsig
  simp only at hp hm hgate ⊢
  have hroi := not_lt.1 hgate
  constructor
  · intro hbuy
    subst hbuy
    rw [calculateExpectedROI, if_pos rfl] at hroi
    by_contra hle
    push_neg at hle
    have h1 : levels.1 - cp ≤ 0 := by linarith
    have h2 : (levels.1 - cp) / cp ≤ 0 :=
      div_nonpos_of_nonpos_of_nonneg h1 hp.le
    have h3 : (levels.1 - cp) / cp * 100 ≤ 0 := by nlinarith
    linarith
  · intro hsell
    subst hsell
    rw [calculateExpectedROI, if_neg (by decide)] at hroi
    by_contra hle
    push_neg at hle
    have h1 : cp - levels.1 ≤ 0 := by linarith
    have h2 : (cp - levels.1) / cp ≤ 0 :=
      div_nonpos_of_nonpos_of_nonneg h1 hp.le
    have h3 : (cp - levels.1) / cp * 100 ≤ 0 := by nlinarith
    linarith

/-- Witness for `c1_target_side_ordering` at the concrete emitted signal
`sigC1`. -/
theorem c1_target_side_ordering_witness :
    (sigC1.typ = BUY → sigC1.price < sigC1.targetPrice) ∧
    (sigC1.typ = SELL → sigC1.targetPrice < sigC1.price) :=
  c1_target_side_ordering cfgC1 "X" dataC1 sigC1
    (by with_unfolding_all decide) (by with_unfolding_all decide)
    (by with_unfolding_all decide)

/-- C4: the classifier never emits a Signal whose expected ROI is strictly
below the configured minimum: both at the level of
`analyzeVolatilityPatterns` and through `generateSignals`. -/
theorem c4_expected_roi_gate :
    (∀ (cfg : VolatilityConfig) (symbol : String) (data : MarketData)
       (sig : Signal), analyzeVolatilityPatterns cfg symbol data = some sig →
         ¬ sig.expectedROI < cfg.minExpectedROI) ∧
    (∀ (cfg : VolatilityConfig) (entries : List (String × MarketData))
       (sig : Signal), sig ∈ generateSignals cfg entries →
         ¬ sig.expectedROI < cfg.minExpectedROI) := by
  have base : ∀ (cfg : VolatilityConfig) (symbol : String) (data : MarketData)
      (sig : Signal), analyzeVolatilityPatterns cfg symbol data = some sig →
        ¬ sig.expectedROI < cfg.minExpectedROI := by
    intro cfg symbol data sig h
    obtain ⟨cp, td, st, levels, -, -, -, -, -, hgate, hsig⟩ :=
      analyzeVolatilityPatterns_some h
    subst hsig
    exact hgate
  refine ⟨base, ?_⟩
  intro cfg entries sig h
  obtain ⟨p, -, -, hp⟩ := mem_generateSignals h
  exact base cfg p.1 p.2 sig hp

/-- Witness for `c4_expected_roi_gate`: its second component applied to the
concrete emitted signal `sigC1`. -/
theorem c4_expected_roi_gate_witness :
    ¬ sigC1.expectedROI < cfgC1.minExpectedROI :=
  c4_expected_roi_gate.2 cfgC1 [("X", dataC1)] sigC1
    (by with_unfolding_all decide)

/-- C6 (counterexample): at indicator values with
`price = lowerBand × 1.02` exactly and RSI below 30, the claimed
non-strict BUY condition (`price ≤ lowerBand × 1.02 ∧ RSI < 30`) holds,
yet `determineSignalType` resolves to HOLD because the code compares
strictly. -/
theorem c6_counterexample :
    determineSignalType indC6 = HOLD ∧
    indC6.price ≤ indC6.lowerBand * (102 / 100) ∧ indC6.rsi < 30 := by
  exact ⟨by with_unfolding_all decide, by with_unfolding_all decide,
    by with_unfolding_all decide⟩

/-- C6 (amended): the direction rule with STRICT band comparisons, as the
code implements it: BUY iff `price < lowerBand × 1.02 ∧ RSI < 30` or
`priceChange > 0 ∧ 50 < RSI < 70`; SELL iff
`price > upperBand × 0.98 ∧ RSI > 70` or
`priceChange < 0 ∧ 30 < RSI < 50`; HOLD otherwise, never an error. -/
theorem c6_direction_rule (ind : TechnicalData) :
    (determineSignalType ind = BUY ↔
      (ind.price < ind.lowerBand * (102 / 100) ∧ ind.rsi < 30) ∨
      (ind.priceChange > 0 ∧ ind.rsi > 50 ∧ ind.rsi < 70)) ∧
    (determineSignalType ind = SELL ↔
      (ind.price > ind.upperBand * (98 / 100) ∧ ind.rsi > 70) ∨
      (ind.priceChange < 0 ∧ ind.rsi < 50 ∧ ind.rsi > 30)) ∧
    (determineSignalType ind = HOLD ↔
      ¬((ind.price < ind.lowerBand * (102 / 100) ∧ ind.rsi < 30) ∨
        (ind.priceChange > 0 ∧ ind.rsi > 50 ∧ ind.rsi < 70)) ∧
      ¬((ind.price > ind.upperBand * (98 / 100) ∧ ind.rsi > 70) ∨
        (ind.priceChange < 0 ∧ ind.rsi < 50 ∧ ind.rsi > 30))) := by
  have hdisj :
      ¬(((ind.price < ind.lowerBand * (102 / 100) ∧ ind.rsi < 30) ∨
         (ind.priceChange > 0 ∧ ind.rsi > 50 ∧ ind.rsi < 70)) ∧
        ((ind.price > ind.upperBand * (98 / 100) ∧ ind.rsi > 70) ∨
         (ind.priceChange < 0 ∧ ind.rsi < 50 ∧ ind.rsi > 30))) := by
    rintro ⟨⟨-, h1⟩ | ⟨h1, h2, h3⟩, ⟨-, h4⟩ | ⟨h4, h5, h6⟩⟩ <;> linarith
  unfold determineSignalType
  split_ifs with h1 h2
  · exact ⟨iff_of_true rfl h1,
      iff_of_false (by decide) (fun hs => hdisj ⟨h1, hs⟩),
      iff_of_false (by decide) (fun hh => hh.1 h1)⟩
  · exact ⟨iff_of_false (by decide) h1, iff_of_true rfl h2,
      iff_of_false (by decide) (fun hh => hh.2 h2)⟩
  · exact ⟨iff_of_false (by decide) h1, iff_of_false (by decide) h2,
      iff_of_true rfl ⟨h1, h2⟩⟩

/-- C8: on windows shorter than the configured period the moving average
and standard deviation both return 0 (hence both Bollinger bands resolve
to 0), and on windows with fewer than `period + 1` samples the RSI returns
its neutral default 50; none of these computations fails. -/
theorem c8_short_window_neutral_defaults (data : MarketData)
    (params : VolatilityConfig) (currentPrice : ℚ)
    (h1 : data.prices.length < params.bollingerPeriod)
    (h2 : data.prices.length < params.rsiPeriod + 1) :
    calculateSMA data.prices params.bollingerPeriod = 0 ∧
    calculateStdDev data.prices params.bollingerPeriod = 0 ∧
    (calculateTechnicalIndicators data params currentPrice).upperBand = 0 ∧
    (calculateTechnicalIndicators data params currentPrice).lowerBand = 0 ∧
    calculateRSI data.prices params.rsiPeriod = 50 := by
  have hsma : calculateSMA data.prices params.bollingerPeriod = 0 := by
    rw [calculateSMA, if_pos h1]
  have hsd : calculateStdDev data.prices params.bollingerPeriod = 0 := by
    rw [calculateStdDev, if_pos h1]
  have hrsi : calculateRSI data.prices params.rsiPeriod = 50 := by
    rw [calculateRSI, if_pos h2]
  refine ⟨hsma, hsd, ?_, ?_, hrsi⟩ <;>
    simp [calculateTechnicalIndicators, hsma, hsd]

/-- Witness for `c8_short_window_neutral_defaults` on an empty series with
the configuration `cfgC1`. -/
theorem c8_short_window_neutral_defaults_witness :
    calculateSMA (MarketData.prices ⟨"", [], []⟩) cfgC1.bollingerPeriod = 0 ∧
    calculateStdDev (MarketData.prices ⟨"", [], []⟩) cfgC1.bollingerPeriod = 0 ∧
    (calculateTechnicalIndicators ⟨"", [], []⟩ cfgC1 0).upperBand = 0 ∧
    (calculateTechnicalIndicators ⟨"", [], []⟩ cfgC1 0).lowerBand = 0 ∧
    calculateRSI (MarketData.prices ⟨"", [], []⟩) cfgC1.rsiPeriod = 50 :=
  c8_short_window_neutral_defaults ⟨"", [], []⟩ cfgC1 0
    (by with_unfolding_all decide) (by with_unfolding_all decide)

/-- C10: an instrument whose price series or volume series has fewer than
30 samples never contributes a Signal to the output of `generateSignals`
(the entry is skipped before any indicator computation).  The conclusion is
phrased as: filtering the output for that instrument's symbol yields the
empty list (keys of the market-data map are unique). -/
theorem c10_short_series_skipped (cfg : VolatilityConfig)
    (entries : List (String × MarketData)) (sym : String) (data : MarketData)
    (hkeys : (entries.map Prod.fst).Nodup)
    (hmem : (sym, data) ∈ entries)
    (hshort : data.prices.length < 30 ∨ data.volumes.length < 30) :
    (generateSignals cfg entries).filter (fun s => s.symbol == sym) = [] := by
  rw [List.filter_eq_nil_iff]
  intro s hs
  obtain ⟨p, hp, hlong, hana⟩ := mem_generateSignals hs
  obtain ⟨p1, p2⟩ := p
  obtain ⟨cp, td, st, lv, -, -, -, -, -, -, hsig⟩ :=
    analyzeVolatilityPatterns_some hana
  simp only [beq_iff_eq]
  intro heq
  rw [hsig] at heq
  have heq' : p1 = sym := heq
  have hpd : p2 = data := value_eq_of_nodup_keys hkeys (heq' ▸ hp) hmem
  rw [hpd] at hlong
  exact hlong hshort

/-- Witness for `c10_short_series_skipped` on a one-entry map with a short
series. -/
theorem c10_short_series_skipped_witness :
    (generateSignals cfgC1 [("Y", ⟨"Y", [1], [1]⟩)]).filter
      (fun s => s.symbol == "Y") = [] :=
  c10_short_series_skipped cfgC1 [("Y", ⟨"Y", [1], [1]⟩)] "Y" ⟨"Y", [1], [1]⟩
    (by decide) (by decide) (by decide)

/-- Trade status from `pkg/execution` (`PENDING`, `EXECUTED`, `CANCELLED`,
`COMPLETED`). -/
inductive TradeStatus where
  | pending
  | executed
  | cancelled
  | completed
deriving DecidableEq

/-- `strategy.TradeSignal` (`BUY`, `SELL`, `HOLD`). -/
inductive TradeSignal where
  | buy
  | sell
  | hold
deriving DecidableEq

/-- `strategy.TradeDecision` (timestamp elided; the trade manager reads
only the symbol, the signal and the rationale). -/
structure TradeDecision where
  symbol : String
  signal : TradeSignal
  price : ℚ
  rationale : String
  score : ℚ
deriving DecidableEq

/-- `data.Stock`, restricted to the fields read by the execution and
monitoring code (`Symbol`, `CurrentPrice`). -/
structure Stock where
  symbol : String
  currentPrice : ℚ
deriving DecidableEq

/-- `execution.Trade` (creation and update times elided; the formatted
numeric part of stop-loss close reasons is elided, their static text is
kept). -/
structure Trade where
  id : String
  symbol : String
  quantity : ℤ
  price : ℚ
  typ : TradeSignal
  status : TradeStatus
  reason : String
deriving DecidableEq

/-- `execution.TradeManager`: the two Go maps keyed by trade id are
modelled as association lists with unique keys. -/
structure TradeManager where
  trades : List (String × Trade)
  activeTrades : List (String × Trade)
  capitalPerStock : ℚ
  maxLossPerTrade : ℚ
deriving DecidableEq

/-- Go map assignment `m[k] = v` on an association list: any existing
binding of `k` is replaced. -/
def insertA {α : Type} (m : List (String × α)) (k : String) (v : α) :
    List (String × α) :=
  m.filter (fun p => !(p.1 == k)) ++ [(k, v)]

/-- Go map deletion `delete(m, k)` on an association list. -/
def eraseA {α : Type} (m : List (String × α)) (k : String) :
    List (String × α) :=
  m.filter (fun p => !(p.1 == k))

/-- In-place mutation `trade.Status = s` of the `Trade` shared between the
`trades` map and its caller: the binding of `k` is updated. -/
def updateStatusA (m : List (String × Trade)) (k : String)
    (s : TradeStatus) : List (String × Trade) :=
  m.map (fun p => if p.1 = k then (p.1, { p.2 with status := s }) else p)

/-- `NewTradeManager`. -/
def newTradeManager (capitalPerStock maxLossPerTrade : ℚ) : TradeManager :=
  { trades := [], activeTrades := [], capitalPerStock := capitalPerStock,
    maxLossPerTrade := maxLossPerTrade }

/-- `getActiveTradeForSymbol`: first active trade with the given symbol in
iteration order. -/
def getActiveTradeForSymbol (t : TradeManager) (symbol : String) :
    Option Trade :=
  (t.activeTrades.find? (fun p => p.2.symbol == symbol)).map Prod.snd

/-- Go's `int(x)` conversion from `float64`: truncation toward zero. -/
def truncInt (q : ℚ) : ℤ :=
  q.num.tdiv q.den

/-- `openPosition`: sizes the position as `int(capitalPerStock /
currentPrice)`; the wall-clock-generated trade id is passed in as
`newId`. -/
def openPosition (t : TradeManager) (decision : TradeDecision)
    (stock : Stock) (newId : String) : Except String Trade × TradeManager :=
  let quantity := truncInt (t.capitalPerStock / stock.currentPrice)
  if quantity ≤ 0 then
    (Except.error ("insufficient capital to buy " ++ stock.symbol), t)
  else
    let trade : Trade :=
      { id := newId, symbol := stock.symbol, quantity := quantity,
        price := stock.currentPrice, typ := TradeSignal.buy,
        status := TradeStatus.executed, reason := decision.rationale }
    (Except.ok trade,
     { t with trades := insertA t.trades newId trade,
              activeTrades := insertA t.activeTrades newId trade })

/-- `closePosition`: records a sell trade (id passed in as `sellId`),
removes the position from the active map and marks the original trade
COMPLETED (the original `Trade` is shared by pointer with the `trades`
map, so the mark is modelled as an update of its binding there). -/
def closePosition (t : TradeManager) (trade : Trade)
    (decision : TradeDecision) (stock : Stock) (sellId : String) :
    Except String Trade × TradeManager :=
  let sellTrade : Trade :=
    { id := sellId, symbol := stock.symbol, quantity := trade.quantity,
      price := stock.currentPrice, typ := TradeSignal.sell,
      status := TradeStatus.executed, reason := decision.rationale }
  (Except.ok sellTrade,
   { t with
     trades := insertA (updateStatusA t.trades trade.id TradeStatus.completed)
                 sellId sellTrade,
     activeTrades := eraseA t.activeTrades trade.id })

/-- `ExecuteTrade`. -/
def executeTrade (t : TradeManager) (decision : TradeDecision)
    (stock : Stock) (newId : String) : Except String Trade × TradeManager :=
  match getActiveTradeForSymbol t decision.symbol with
  | some activeTrade =>
    if decision.signal = TradeSignal.sell then
      closePosition t activeTrade decision stock newId
    else
      (Except.error ("already have an active trade for " ++ decision.symbol), t)
  | none =>
    if decision.signal = TradeSignal.buy then
      openPosition t decision stock newId
    else
      (Except.error ("no action needed for " ++ decision.symbol), t)

/-- `CancelTrade`. -/
def cancelTrade (t : TradeManager) (tradeID : String) :
    Except String Unit × TradeManager :=
  match List.lookup tradeID t.trades with
  | none => (Except.error ("trade not found: " ++ tradeID), t)
  | some trade =>
    if trade.status = TradeStatus.completed then
      (Except.error ("cannot cancel completed trade: " ++ tradeID), t)
    else
      (Except.ok (),
       { t with trades := updateStatusA t.trades tradeID TradeStatus.cancelled,
                activeTrades := eraseA t.activeTrades tradeID })

/-- The sell trade `CheckStopLoss` records when it closes a position
(formatted loss amounts in the reason are elided, the static text kept;
the wall-clock id is `mkId` applied to the symbol). -/
def stopLossSell (mkId : String → String) (trade : Trade) (stock : Stock) :
    Trade :=
  { id := mkId trade.symbol, symbol := trade.symbol,
    quantity := trade.quantity, price := stock.currentPrice,
    typ := TradeSignal.sell, status := TradeStatus.executed,
    reason := "Stop loss triggered" }

/-- The loop body of `CheckStopLoss`: iterates over the snapshot of the
active map (Go permits deleting the entry under iteration), skipping
symbols absent from the live-price map, closing every position whose loss
`entryValue - currentValue` strictly exceeds `maxLossPerTrade`. -/
def checkStopLossGo (mkId : String → String) (stocks : List (String × Stock)) :
    List (String × Trade) → TradeManager → List Trade × TradeManager
  | [], t => ([], t)
  | (id, trade) :: rest, t =>
    match List.lookup trade.symbol stocks with
    | none => checkStopLossGo mkId stocks rest t
    | some stock =>
      let currentValue := (trade.quantity : ℚ) * stock.currentPrice
      let entryValue := (trade.quantity : ℚ) * trade.price
      let loss := entryValue - currentValue
      if loss > t.maxLossPerTrade then
        let sellTrade := stopLossSell mkId trade stock
        let t' : TradeManager :=
          { t with
            trades := insertA (updateStatusA t.trades id TradeStatus.completed)
                        sellTrade.id sellTrade,
            activeTrades := eraseA t.activeTrades id }
        let res := checkStopLossGo mkId stocks rest t'
        (sellTrade :: res.1, res.2)
      else checkStopLossGo mkId stocks rest t

/-- `CheckStopLoss`: returns the closed (sell) trades and the new manager
state. -/
def checkStopLoss (t : TradeManager) (stocks : List (String × Stock))
    (mkId : String → String) : List Trade × TradeManager :=
  checkStopLossGo mkId stocks t.activeTrades t

/-- The sell trade `CloseAllPositions` records for each closed
position. -/
def closeAllSell (mkId : String → String) (trade : Trade) (stock : Stock) :
    Trade :=
  { id := mkId trade.symbol, symbol := trade.symbol,
    quantity := trade.quantity, price := stock.currentPrice,
    typ := TradeSignal.sell, status := TradeStatus.executed,
    reason := "End of trading day - closing all positions" }

/-- The loop body of `CloseAllPositions`: closes every active position whose
symbol appears in the live-price map. -/
def closeAllGo (mkId : String → String) (stocks : List (String × Stock)) :
    List (String × Trade) → TradeManager → List Trade × TradeManager
  | [], t => ([], t)
  | (id, trade) :: rest, t =>
    match List.lookup trade.symbol stocks with
    | none => closeAllGo mkId stocks rest t
    | some stock =>
      let sellTrade := closeAllSell mkId trade stock
      let t' : TradeManager :=
        { t with
          trades := insertA (updateStatusA t.trades id TradeStatus.completed)
                      sellTrade.id sellTrade,
          activeTrades := eraseA t.activeTrades id }
      let res := closeAllGo mkId stocks rest t'
      (sellTrade :: res.1, res.2)

/-- `CloseAllPositions`. -/
def closeAllPositions (t : TradeManager) (stocks : List (String × Stock))
    (mkId : String → String) : List Trade × TradeManager :=
  closeAllGo mkId stocks t.activeTrades t

/-- One call against the trade manager, with all wall-clock-generated trade
identifiers passed in explicitly (universally quantifying over them
over-approximates the time-based ids of the Go code). -/
inductive TMOp where
  | execute (decision : TradeDecision) (stock : Stock) (newId : String)
  | checkStop (stocks : List (String × Stock)) (mkId : String → String)
  | closeAll (stocks : List (String × Stock)) (mkId : String → String)
  | cancel (tradeID : String)

/-- Well-formedness of a call: `ExecuteTrade` is always invoked with the
stock quote of the decision's own symbol (all call sites pair a decision
with the quote it was made from). -/
def TMOp.WF : TMOp → Prop
  | .execute decision stock _ => decision.symbol = stock.symbol
  | _ => True

/-- State reached after one call (the returned value is discarded). -/
def applyOp (t : TradeManager) : TMOp → TradeManager
  | .execute decision stock newId => (executeTrade t decision stock newId).2
  | .checkStop stocks mkId => (checkStopLoss t stocks mkId).2
  | .closeAll stocks mkId => (closeAllPositions t stocks mkId).2
  | .cancel tradeID => (cancelTrade t tradeID).2

/-- State reached after a sequence of calls. -/
def runOps (t : TradeManager) : List TMOp → TradeManager
  | [] => t
  | op :: ops => runOps (applyOp t op) ops

/-- At most one active trade per symbol: any two entries of the active map
carrying the same symbol are the same entry. -/
def atMostOnePerSymbol (m : List (String × Trade)) : Prop :=
  ∀ p ∈ m, ∀ q ∈ m, p.2.symbol = q.2.symbol → p = q

/-- Representation invariant of the active map: unique keys and at most one
entry per symbol. -/
def goodActive (m : List (String × Trade)) : Prop :=
  (m.map Prod.fst).Nodup ∧ atMostOnePerSymbol m

/-- `RiskManager.CheckDailyLoss`, as a function of the accumulated realized
daily PnL, the loss limit, the active trades and the live-price map (the
date-rollover reset, which reads the wall clock, is elided: the claim
concerns a single trading day). -/
def checkDailyLoss (dailyPnL maxDailyLoss : ℚ) (activeTrades : List Trade)
    (stocks : List (String × Stock)) : Bool × ℚ :=
  let currentPnL := activeTrades.foldl
    (fun acc trade =>
      match List.lookup trade.symbol stocks with
      | none => acc
      | some stock =>
        acc + ((trade.quantity : ℚ) * stock.currentPrice -
               (trade.quantity : ℚ) * trade.price))
    dailyPnL
  (decide (currentPnL < -maxDailyLoss), currentPnL)

/-- `RiskManager.UpdateDailyPnL` (date rollover elided as for
`checkDailyLoss`): adds `sellValue - buyValue` to the daily PnL. -/
def updateDailyPnL (dailyPnL : ℚ) (buyTrade sellTrade : Trade) : ℚ :=
  dailyPnL + ((sellTrade.quantity : ℚ) * sellTrade.price -
              (buyTrade.quantity : ℚ) * buyTrade.price)

lemma mem_of_mem_eraseA {α : Type} {m : List (String × α)} {k : String}
    {q : String × α} (h : q ∈ eraseA m k) : q ∈ m :=
  List.mem_of_mem_filter h

lemma fst_ne_of_mem_eraseA {α : Type} {m : List (String × α)} {k : String}
    {q : String × α} (h : q ∈ eraseA m k) : q.1 ≠ k := by
  rw [eraseA] at h
  simpa using List.of_mem_filter h

lemma mem_insertA {α : Type} {m : List (String × α)} {k : String} {v : α}
    {q : String × α} (h : q ∈ insertA m k v) : q ∈ m ∨ q = (k, v) := by
  rcases List.mem_append.1 h with h | h
  · exact Or.inl (List.mem_of_mem_filter h)
  · simp only [List.mem_singleton] at h
    exact Or.inr h

lemma nodup_keys_eraseA {α : Type} {m : List (String × α)} {k : String}
    (h : (m.map Prod.fst).Nodup) : ((eraseA m k).map Prod.fst).Nodup :=
  List.Nodup.sublist (List.Sublist.map _ (List.filter_sublist _)) h

lemma nodup_keys_insertA {α : Type} {m : List (String × α)} {k : String}
    {v : α} (h : (m.map Prod.fst).Nodup) :
    ((insertA m k v).map Prod.fst).Nodup := by
  rw [insertA, List.map_append]
  refine List.Nodup.append (nodup_keys_eraseA h) (by simp) ?_
  intro a ha hb
  simp only [List.map_cons, List.map_nil, List.mem_singleton] at hb
  subst hb
  obtain ⟨p, hp, hpa⟩ := List.mem_map.1 ha
  exact fst_ne_of_mem_eraseA hp hpa

lemma lookup_eraseA_self {α : Type} (m : List (String × α)) (k : String) :
    List.lookup k (eraseA m k) = none := by
  induction m with
  | nil => rfl
  | cons p rest ih =>
    obtain ⟨k0, v0⟩ := p
    by_cases h : k0 = k
    · subst h
      simpa [eraseA, List.filter_cons] using ih
    · simpa [eraseA, List.filter_cons, List.lookup_cons, beq_false_of_ne h,
        beq_false_of_ne (Ne.symm h)] using ih

lemma lookup_eraseA_ne {α : Type} {m : List (String × α)} {k k' : String}
    (h : k' ≠ k) : List.lookup k' (eraseA m k) = List.lookup k' m := by
  induction m with
  | nil => rfl
  | cons p rest ih =>
    obtain ⟨k0, v0⟩ := p
    by_cases hp : k0 = k
    · subst hp
      simpa [eraseA, List.filter_cons, List.lookup_cons,
        beq_false_of_ne h] using ih
    · by_cases hk : k' = k0
      · subst hk
        simp [eraseA, List.filter_cons, List.lookup_cons, beq_false_of_ne hp]
      · simpa [eraseA, List.filter_cons, List.lookup_cons,
          beq_false_of_ne hp, beq_false_of_ne hk] using ih

lemma lookup_insertA_self {α : Type} (m : List (String × α)) (k : String)
    (v : α) : List.lookup k (insertA m k v) = some v := by
  induction m with
  | nil => simp [insertA, List.lookup_cons]
  | cons p rest ih =>
    obtain ⟨k0, v0⟩ := p
    by_cases h : k0 = k
    · subst h
      simpa [insertA, List.filter_cons] using ih
    · simpa [insertA, List.filter_cons, List.lookup_cons, beq_false_of_ne h,
        beq_false_of_ne (Ne.symm h)] using ih

lemma lookup_insertA_ne {α : Type} {m : List (String × α)} {k k' : String}
    {v : α} (h : k' ≠ k) :
    List.lookup k' (insertA m k v) = List.lookup k' m := by
  induction m with
  | nil => simp [insertA, List.lookup_cons, beq_false_of_ne h]
  | cons p rest ih =>
    obtain ⟨k0, v0⟩ := p
    by_cases hp : k0 = k
    · subst hp
      simpa [insertA, List.filter_cons, List.lookup_cons,
        beq_false_of_ne h] using ih
    · by_cases hk : k' = k0
      · subst hk
        simp [insertA, List.filter_cons, List.lookup_cons, beq_false_of_ne hp]
      · simpa [insertA, List.filter_cons, List.lookup_cons,
          beq_false_of_ne hp, beq_false_of_ne hk] using ih

lemma lookup_updateStatusA_ne {m : List (String × Trade)} {k k' : String}
    {s : TradeStatus} (h : k' ≠ k) :
    List.lookup k' (updateStatusA m k s) = List.lookup k' m := by
  induction m with
  | nil => rfl
  | cons p rest ih =>
    obtain ⟨k0, v0⟩ := p
    by_cases hp : k0 = k
    · subst hp
      simpa [updateStatusA, List.lookup_cons, beq_false_of_ne h] using ih
    · by_cases hk : k' = k0
      · subst hk
        simp [updateStatusA, List.lookup_cons, hp]
      · simpa [updateStatusA, List.lookup_cons, hp,
          beq_false_of_ne hk] using ih

lemma lookup_updateStatusA_self (m : List (String × Trade)) (k : String)
    (s : TradeStatus) :
    List.lookup k (updateStatusA m k s) =
      (List.lookup k m).map (fun tr => { tr with status := s }) := by
  induction m with
  | nil => rfl
  | cons p rest ih =>
    obtain ⟨k0, v0⟩ := p
    by_cases hp : k0 = k
    · subst hp
      simp [updateStatusA, List.lookup_cons]
    · simpa [updateStatusA, List.lookup_cons, hp,
        beq_false_of_ne (Ne.symm hp)] using ih

lemma lookup_of_mem_nodup {α : Type} {m : List (String × α)} {k : String}
    {v : α} (h : (m.map Prod.fst).Nodup) (hm : (k, v) ∈ m) :
    List.lookup k m = some v := by
  induction m with
  | nil => cases hm
  | cons p rest ih =>
    obtain ⟨k0, v0⟩ := p
    rw [List.map_cons, List.nodup_cons] at h
    rcases List.mem_cons.1 hm with heq | hm'
    · obtain ⟨rfl, rfl⟩ := Prod.mk.injEq .. ▸ heq
      simp [List.lookup_cons]
    · have hk : k ≠ k0 := by
        intro hk
        subst hk
        exact h.1 (by simpa using List.mem_map_of_mem Prod.fst hm')
      simp only [List.lookup_cons, beq_false_of_ne hk]
      exact ih h.2 hm'

lemma atMostOne_of_eraseA {m : List (String × Trade)} {k : String}
    (h : atMostOnePerSymbol m) : atMostOnePerSymbol (eraseA m k) :=
  fun p hp q hq hs => h p (mem_of_mem_eraseA hp) q (mem_of_mem_eraseA hq) hs

lemma goodActive_eraseA {m : List (String × Trade)} {k : String}
    (h : goodActive m) : goodActive (eraseA m k) :=
  ⟨nodup_keys_eraseA h.1, atMostOne_of_eraseA h.2⟩

lemma goodActive_insertA_freshSymbol {m : List (String × Trade)} {k : String}
    {tr : Trade} (h : goodActive m)
    (hs : ∀ p ∈ m, p.2.symbol ≠ tr.symbol) :
    goodActive (insertA m k tr) := by
  refine ⟨nodup_keys_insertA h.1, ?_⟩
  intro p hp q hq hsym
  rcases mem_insertA hp with hp' | rfl
  · rcases mem_insertA hq with hq' | rfl
    · exact h.2 p hp' q hq' hsym
    · exact absurd hsym (hs p hp')
  · rcases mem_insertA hq with hq' | rfl
    · exact absurd hsym.symm (hs q hq')
    · rfl

lemma no_active_symbol_of_none {t : TradeManager} {sym : String}
    (h : getActiveTradeForSymbol t sym = none) :
    ∀ p ∈ t.activeTrades, p.2.symbol ≠ sym := by
  intro p hp
  rw [getActiveTradeForSymbol, Option.map_eq_none'] at h
  have := List.find?_eq_none.1 h p hp
  simpa using this

lemma goodActive_checkStopLossGo (mkId : String → String)
    (stocks : List (String × Stock)) (l : List (String × Trade)) :
    ∀ t : TradeManager, goodActive t.activeTrades →
      goodActive (checkStopLossGo mkId stocks l t).2.activeTrades := by
  induction l with
  | nil => intro t h; exact h
  | cons p rest ih =>
    intro t h
    obtain ⟨id, trade⟩ := p
    rw [checkStopLossGo]
    cases List.lookup trade.symbol stocks with
    | none => exact ih t h
    | some stock =>
      simp only
      split_ifs with hl
      · exact ih _ (goodActive_eraseA h)
      · exact ih t h

lemma goodActive_closeAllGo (mkId : String → String)
    (stocks : List (String × Stock)) (l : List (String × Trade)) :
    ∀ t : TradeManager, goodActive t.activeTrades →
      goodActive (closeAllGo mkId stocks l t).2.activeTrades := by
  induction l with
  | nil => intro t h; exact h
  | cons p rest ih =>
    intro t h
    obtain ⟨id, trade⟩ := p
    rw [closeAllGo]
    cases List.lookup trade.symbol stocks with
    | none => exact ih t h
    | some stock => exact ih _ (goodActive_eraseA h)

lemma goodActive_applyOp {t : TradeManager} {op : TMOp} (hwf : op.WF)
    (h : goodActive t.activeTrades) :
    goodActive (applyOp t op).activeTrades := by
  cases op with
  | execute decision stock newId =>
    cases hact : getActiveTradeForSymbol t decision.symbol with
    | some activeTrade =>
      rw [applyOp, executeTrade, hact]
      dsimp only
      split_ifs
      · exact goodActive_eraseA h
      · exact h
    | none =>
      rw [applyOp, executeTrade, hact]
      dsimp only
      split_ifs with hb
      · rw [openPosition]
        split_ifs
        · exact h
        · refine goodActive_insertA_freshSymbol h ?_
          intro p hp
          have := no_active_symbol_of_none hact p hp
          simp only [TMOp.WF] at hwf
          rwa [hwf] at this
      · exact h
  | checkStop stocks mkId =>
    exact goodActive_checkStopLossGo mkId stocks t.activeTrades t h
  | closeAll stocks mkId =>
    exact goodActive_closeAllGo mkId stocks t.activeTrades t h
  | cancel tradeID =>
    rw [applyOp, cancelTrade]
    cases List.lookup tradeID t.trades with
    | none => exact h
    | some trade =>
      simp only
      split_ifs
      · exact h
      · exact goodActive_eraseA h

lemma goodActive_runOps {ops : List TMOp} :
    ∀ t : TradeManager, (∀ op ∈ ops, op.WF) → goodActive t.activeTrades →
      goodActive (runOps t ops).activeTrades := by
  induction ops with
  | nil => intro t _ h; exact h
  | cons op rest ih =>
    intro t hwf h
    exact ih _ (fun o ho => hwf o (List.mem_cons_of_mem op ho))
      (goodActive_applyOp (hwf op (List.mem_cons_self op rest)) h)

/-- C2: starting from a fresh `TradeManager`, after every well-formed
sequence of `ExecuteTrade`, `CheckStopLoss`, `CloseAllPositions` and
`CancelTrade` calls, at most one active trade exists per symbol
(well-formed: each `ExecuteTrade` call pairs a decision with the stock
quote of its own symbol); and an `ExecuteTrade` with a Buy decision while
a trade for that symbol is active returns an error and leaves the state
unchanged. -/
theorem c2_one_active_trade_per_symbol (cap maxLoss : ℚ) (ops : List TMOp)
    (hwf : ∀ op ∈ ops, op.WF) :
    atMostOnePerSymbol (runOps (newTradeManager cap maxLoss) ops).activeTrades ∧
    ∀ (t : TradeManager) (decision : TradeDecision) (stock : Stock)
      (newId : String),
      (getActiveTradeForSymbol t decision.symbol).isSome = true →
      decision.signal = TradeSignal.buy →
      executeTrade t decision stock newId =
        (Except.error ("already have an active trade for " ++ decision.symbol),
         t) := by
  constructor
  · refine (goodActive_runOps (newTradeManager cap maxLoss) hwf ?_).2
    exact ⟨List.nodup_nil, fun p hp => absurd hp (List.not_mem_nil p)⟩
  · intro t decision stock newId hsome hbuy
    cases hact : getActiveTradeForSymbol t decision.symbol with
    | none => rw [hact] at hsome; exact absurd hsome (by simp)
    | some activeTrade =>
      rw [executeTrade, hact]
      dsimp only
      rw [if_neg (by rw [hbuy]; exact fun hc => TradeSignal.noConfusion hc)]

/-- Witness for `c2_one_active_trade_per_symbol`: a concrete one-buy call
sequence, and a concrete rejected second buy. -/
theorem c2_one_active_trade_per_symbol_witness :
    atMostOnePerSymbol
      (runOps (newTradeManager 100 10)
        [TMOp.execute ⟨"AAPL", TradeSignal.buy, 50, "r", 1⟩ ⟨"AAPL", 50⟩
          "id1"]).activeTrades ∧
    executeTrade
      ⟨[("id1", ⟨"id1", "AAPL", 2, 50, TradeSignal.buy, TradeStatus.executed,
          "r"⟩)],
       [("id1", ⟨"id1", "AAPL", 2, 50, TradeSignal.buy, TradeStatus.executed,
          "r"⟩)], 100, 10⟩
      ⟨"AAPL", TradeSignal.buy, 50, "r", 1⟩ ⟨"AAPL", 50⟩ "id2" =
      (Except.error ("already have an active trade for " ++
        (⟨"AAPL", TradeSignal.buy, 50, "r", 1⟩ : TradeDecision).symbol),
       ⟨[("id1", ⟨"id1", "AAPL", 2, 50, TradeSignal.buy, TradeStatus.executed,
          "r"⟩)],
        [("id1", ⟨"id1", "AAPL", 2, 50, TradeSignal.buy, TradeStatus.executed,
          "r"⟩)], 100, 10⟩) := by
  have h := c2_one_active_trade_per_symbol 100 10
    [TMOp.execute ⟨"AAPL", TradeSignal.buy, 50, "r", 1⟩ ⟨"AAPL", 50⟩ "id1"]
    (by
      intro op hop
      simp only [List.mem_singleton] at hop
      subst hop
      exact rfl)
  exact ⟨h.1, h.2 _ _ _ "id2" (by with_unfolding_all decide) rfl⟩

lemma truncInt_eq_floor_of_nonneg (q : ℚ) (h : 0 ≤ q) : truncInt q = ⌊q⌋ := by
  rw [truncInt, Rat.floor_def]
  exact Int.tdiv_eq_ediv (Rat.num_nonneg.2 h) (Int.natCast_nonneg q.den)

lemma truncInt_nonpos_of_neg (q : ℚ) (h : q < 0) : truncInt q ≤ 0 := by
  rw [truncInt]
  have hn : q.num < 0 := Rat.num_neg.2 h
  have h2 : 0 ≤ (-q.num).tdiv q.den :=
    Int.tdiv_nonneg (by omega) (Int.natCast_nonneg _)
  have h3 : (-q.num).tdiv q.den = -(q.num.tdiv q.den) := Int.neg_tdiv _ _
  omega

lemma truncInt_nonpos_iff (q : ℚ) : truncInt q ≤ 0 ↔ ⌊q⌋ ≤ 0 := by
  rcases le_or_lt 0 q with h | h
  · rw [truncInt_eq_floor_of_nonneg q h]
  · exact iff_of_true (truncInt_nonpos_of_neg q h) (Int.floor_nonpos h.le)

/-- C7: `ExecuteTrade` on a Buy decision for a symbol with no active trade
sizes the position as `⌊capitalPerStock / currentPrice⌋` (Go truncation
agrees with the floor here since the price is positive); a non-positive
quantity yields the insufficient-capital error and an unchanged state,
otherwise exactly the one new trade at the current price is recorded in
both maps. -/
theorem c7_position_sizing (t : TradeManager) (decision : TradeDecision)
    (stock : Stock) (newId : String)
    (hno : getActiveTradeForSymbol t decision.symbol = none)
    (hbuy : decision.signal = TradeSignal.buy)
    (hp : 0 < stock.currentPrice) :
    (⌊t.capitalPerStock / stock.currentPrice⌋ ≤ 0 →
      executeTrade t decision stock newId =
        (Except.error ("insufficient capital to buy " ++ stock.symbol), t)) ∧
    (0 < ⌊t.capitalPerStock / stock.currentPrice⌋ →
      executeTrade t decision stock newId =
        (Except.ok
           { id := newId, symbol := stock.symbol,
             quantity := ⌊t.capitalPerStock / stock.currentPrice⌋,
             price := stock.currentPrice, typ := TradeSignal.buy,
             status := TradeStatus.executed, reason := decision.rationale },
         { t with
           trades := insertA t.trades newId
             { id := newId, symbol := stock.symbol,
               quantity := ⌊t.capitalPerStock / stock.currentPrice⌋,
               price := stock.currentPrice, typ := TradeSignal.buy,
               status := TradeStatus.executed, reason := decision.rationale },
           activeTrades := insertA t.activeTrades newId
             { id := newId, symbol := stock.symbol,
               quantity := ⌊t.capitalPerStock / stock.currentPrice⌋,
               price := stock.currentPrice, typ := TradeSignal.buy,
               status := TradeStatus.executed,
               reason := decision.rationale } })) := by
  rw [executeTrade, hno]
  dsimp only
  rw [if_pos hbuy, openPosition]
  dsimp only
  constructor
  · intro hfl
    rw [if_pos ((truncInt_nonpos_iff _).2 hfl)]
  · intro hfl
    have h0 : 0 ≤ t.capitalPerStock / stock.currentPrice := by
      by_contra hneg
      push_neg at hneg
      have := Int.floor_nonpos hneg.le
      omega
    have heq : truncInt (t.capitalPerStock / stock.currentPrice) =
        ⌊t.capitalPerStock / stock.currentPrice⌋ :=
      truncInt_eq_floor_of_nonneg _ h0
    rw [if_neg (by omega : ¬ truncInt (t.capitalPerStock /
      stock.currentPrice) ≤ 0), heq]

/-- Witness for `c7_position_sizing`: both branches at concrete inputs,
through the theorem itself. -/
theorem c7_position_sizing_witness :
    executeTrade (newTradeManager 100 10)
      ⟨"MSFT", TradeSignal.buy, 40, "r", 1⟩ ⟨"MSFT", 40⟩ "id7" =
      (Except.ok
         { id := "id7", symbol := "MSFT",
           quantity := ⌊(newTradeManager 100 10).capitalPerStock /
             (⟨"MSFT", (40 : ℚ)⟩ : Stock).currentPrice⌋,
           price := 40, typ := TradeSignal.buy,
           status := TradeStatus.executed, reason := "r" },
       { newTradeManager 100 10 with
         trades := insertA (newTradeManager 100 10).trades "id7"
           { id := "id7", symbol := "MSFT",
             quantity := ⌊(newTradeManager 100 10).capitalPerStock /
               (⟨"MSFT", (40 : ℚ)⟩ : Stock).currentPrice⌋,
             price := 40, typ := TradeSignal.buy,
             status := TradeStatus.executed, reason := "r" },
         activeTrades := insertA (newTradeManager 100 10).activeTrades "id7"
           { id := "id7", symbol := "MSFT",
             quantity := ⌊(newTradeManager 100 10).capitalPerStock /
               (⟨"MSFT", (40 : ℚ)⟩ : Stock).currentPrice⌋,
             price := 40, typ := TradeSignal.buy,
             status := TradeStatus.executed, reason := "r" } }) :=
  (c7_position_sizing (newTradeManager 100 10)
    ⟨"MSFT", TradeSignal.buy, 40, "r", 1⟩ ⟨"MSFT", 40⟩ "id7"
    rfl rfl (by with_unfolding_all decide)).2
    (by with_unfolding_all decide)

lemma allBuy_eraseA {m : List (String × Trade)} {k : String}
    (h : ∀ p ∈ m, p.2.typ = TradeSignal.buy) :
    ∀ p ∈ eraseA m k, p.2.typ = TradeSignal.buy :=
  fun p hp => h p (mem_of_mem_eraseA hp)

lemma allBuy_checkStopLossGo (mkId : String → String)
    (stocks : List (String × Stock)) (l : List (String × Trade)) :
    ∀ t : TradeManager, (∀ p ∈ t.activeTrades, p.2.typ = TradeSignal.buy) →
      ∀ p ∈ (checkStopLossGo mkId stocks l t).2.activeTrades,
        p.2.typ = TradeSignal.buy := by
  induction l with
  | nil => intro t h; exact h
  | cons p rest ih =>
    intro t h
    obtain ⟨id, trade⟩ := p
    rw [checkStopLossGo]
    cases List.lookup trade.symbol stocks with
    | none => exact ih t h
    | some stock =>
      dsimp only
      split_ifs with hl
      · exact ih _ (allBuy_eraseA h)
      · exact ih t h

lemma allBuy_closeAllGo (mkId : String → String)
    (stocks : List (String × Stock)) (l : List (String × Trade)) :
    ∀ t : TradeManager, (∀ p ∈ t.activeTrades, p.2.typ = TradeSignal.buy) →
      ∀ p ∈ (closeAllGo mkId stocks l t).2.activeTrades,
        p.2.typ = TradeSignal.buy := by
  induction l with
  | nil => intro t h; exact h
  | cons p rest ih =>
    intro t h
    obtain ⟨id, trade⟩ := p
    rw [closeAllGo]
    cases List.lookup trade.symbol stocks with
    | none => exact ih t h
    | some stock => exact ih _ (allBuy_eraseA h)

lemma allBuy_applyOp {t : TradeManager} {op : TMOp}
    (h : ∀ p ∈ t.activeTrades, p.2.typ = TradeSignal.buy) :
    ∀ p ∈ (applyOp t op).activeTrades, p.2.typ = TradeSignal.buy := by
  cases op with
  | execute decision stock newId =>
    cases hact : getActiveTradeForSymbol t decision.symbol with
    | some activeTrade =>
      rw [applyOp, executeTrade, hact]
      dsimp only
      split_ifs
      · exact allBuy_eraseA h
      · exact h
    | none =>
      rw [applyOp, executeTrade, hact]
      dsimp only
      split_ifs
      · rw [openPosition]
        dsimp only
        split_ifs
        · exact h
        · intro p hp
          rcases mem_insertA hp with hp' | rfl
          · exact h p hp'
          · rfl
      · exact h
  | checkStop stocks mkId =>
    exact allBuy_checkStopLossGo mkId stocks t.activeTrades t h
  | closeAll stocks mkId =>
    exact allBuy_closeAllGo mkId stocks t.activeTrades t h
  | cancel tradeID =>
    rw [applyOp, cancelTrade]
    cases List.lookup tradeID t.trades with
    | none => exact h
    | some trade =>
      dsimp only
      split_ifs
      · exact h
      · exact allBuy_eraseA h

lemma allBuy_runOps (ops : List TMOp) :
    ∀ t : TradeManager, (∀ p ∈ t.activeTrades, p.2.typ = TradeSignal.buy) →
      ∀ p ∈ (runOps t ops).activeTrades, p.2.typ = TradeSignal.buy := by
  induction ops with
  | nil => intro t h; exact h
  | cons op rest ih => intro t h; exact ih _ (allBuy_applyOp h)

/-- C9: closing a position realizes a deterministic PnL.  `closePosition`
always emits a sell of the position's full quantity at the given live
price, and `UpdateDailyPnL` on that pair adds exactly
`(exit - entry) × quantity` to the daily PnL.  Every position the manager
ever holds is BUY-originated (the manager opens positions only on Buy
decisions), so the SELL-originated clause of the claim is vacuous: in every
reachable state all active trades carry the BUY type. -/
theorem c9_deterministic_realized_pnl :
    (∀ (t : TradeManager) (tr : Trade) (decision : TradeDecision)
       (stock : Stock) (sellId : String) (pnl : ℚ),
       (closePosition t tr decision stock sellId).1 =
         Except.ok
           { id := sellId, symbol := stock.symbol, quantity := tr.quantity,
             price := stock.currentPrice, typ := TradeSignal.sell,
             status := TradeStatus.executed,
             reason := decision.rationale } ∧
       updateDailyPnL pnl tr
           { id := sellId, symbol := stock.symbol, quantity := tr.quantity,
             price := stock.currentPrice, typ := TradeSignal.sell,
             status := TradeStatus.executed,
             reason := decision.rationale } =
         pnl + (stock.currentPrice - tr.price) * (tr.quantity : ℚ)) ∧
    (∀ (cap maxLoss : ℚ) (ops : List TMOp),
       ((runOps (newTradeManager cap maxLoss) ops).activeTrades.all
         (fun p => p.2.typ == TradeSignal.buy)) = true) := by
  constructor
  · intro t tr decision stock sellId pnl
    refine ⟨rfl, ?_⟩
    rw [updateDailyPnL]
    ring
  · intro cap maxLoss ops
    rw [List.all_eq_true]
    intro p hp
    rw [beq_iff_eq]
    exact allBuy_runOps ops (newTradeManager cap maxLoss)
      (fun q hq => absurd hq (List.not_mem_nil q)) p hp

/-- C5 (counterexample): with a realized daily PnL exactly equal to
`-maxDailyLoss` and no open positions, the aggregate PnL satisfies the
claimed non-strict flag condition (`≤ -maxDailyLoss`), yet `CheckDailyLoss`
does NOT flag the halt because the code compares strictly
(`currentPnL < -maxDailyLoss`). -/
theorem c5_counterexample :
    (checkDailyLoss (-100) 100 [] []).1 = false ∧
    (checkDailyLoss (-100) 100 [] []).2 = -100 ∧
    ((-100 : ℚ) ≤ -(100 : ℚ)) := by
  exact ⟨by with_unfolding_all decide, by with_unfolding_all decide,
    by with_unfolding_all decide⟩

lemma foldl_unrealized_pnl (stocks : List (String × Stock)) :
    ∀ (l : List Trade) (init : ℚ),
    l.foldl
      (fun acc trade =>
        match List.lookup trade.symbol stocks with
        | none => acc
        | some stock =>
          acc + ((trade.quantity : ℚ) * stock.currentPrice -
                 (trade.quantity : ℚ) * trade.price)) init
    = init + (l.map
        (fun trade =>
          match List.lookup trade.symbol stocks with
          | none => 0
          | some stock =>
            (trade.quantity : ℚ) * stock.currentPrice -
            (trade.quantity : ℚ) * trade.price)).sum := by
  intro l
  induction l with
  | nil => intro init; simp
  | cons tr rest ih =>
    intro init
    rw [List.foldl_cons, List.map_cons, List.sum_cons, ih]
    cases List.lookup tr.symbol stocks <;> dsimp only <;> ring

/-- C5 (amended): `CheckDailyLoss` flags the daily-loss halt iff the
aggregate (realized + unrealized over priced active trades) PnL is
STRICTLY below `-maxDailyLoss`; an aggregate PnL exactly equal to
`-maxDailyLoss` does not flag.  The aggregate equals the realized PnL plus
the sum of `quantity × (currentPrice - entryPrice)` over active trades
whose symbol has a live price. -/
theorem c5_daily_loss_halt (pnl maxDailyLoss : ℚ) (active : List Trade)
    (stocks : List (String × Stock)) :
    ((checkDailyLoss pnl maxDailyLoss active stocks).1 = true ↔
      (checkDailyLoss pnl maxDailyLoss active stocks).2 < -maxDailyLoss) ∧
    (checkDailyLoss pnl maxDailyLoss active stocks).2 =
      pnl + (active.map
        (fun trade =>
          match List.lookup trade.symbol stocks with
          | none => 0
          | some stock =>
            (trade.quantity : ℚ) * stock.currentPrice -
            (trade.quantity : ℚ) * trade.price)).sum := by
  constructor
  · rw [checkDailyLoss]
    dsimp only
    exact decide_eq_true_iff
  · rw [checkDailyLoss]
    dsimp only
    exact foldl_unrealized_pnl stocks active pnl

lemma checkStopLossGo_lookup_stable (mkId : String → String)
    (stocks : List (String × Stock)) (id : String)
    (hfresh : ∀ s, mkId s ≠ id) :
    ∀ (l : List (String × Trade)) (t : TradeManager),
    (∀ p ∈ l, p.1 ≠ id) →
    List.lookup id (checkStopLossGo mkId stocks l t).2.activeTrades =
      List.lookup id t.activeTrades ∧
    List.lookup id (checkStopLossGo mkId stocks l t).2.trades =
      List.lookup id t.trades := by
  intro l
  induction l with
  | nil => intro t _; exact ⟨rfl, rfl⟩
  | cons p rest ih =>
    intro t hne
    obtain ⟨id0, trade⟩ := p
    have hid0 : id0 ≠ id := hne (id0, trade) (List.mem_cons_self _ _)
    have hrestne : ∀ q ∈ rest, q.1 ≠ id :=
      fun q hq => hne q (List.mem_cons_of_mem _ hq)
    rw [checkStopLossGo]
    cases List.lookup trade.symbol stocks with
    | none => exact ih t hrestne
    | some stock =>
      dsimp only
      split_ifs with hl
      · have hrest := ih
          { t with
            trades := insertA
              (updateStatusA t.trades id0 TradeStatus.completed)
              (stopLossSell mkId trade stock).id
              (stopLossSell mkId trade stock),
            activeTrades := eraseA t.activeTrades id0 } hrestne
        refine ⟨?_, ?_⟩
        · rw [hrest.1]
          exact lookup_eraseA_ne (Ne.symm hid0)
        · rw [hrest.2]
          have hsellid : (stopLossSell mkId trade stock).id =
              mkId trade.symbol := rfl
          rw [hsellid, lookup_insertA_ne (Ne.symm (hfresh trade.symbol))]
          exact lookup_updateStatusA_ne (Ne.symm hid0)
      · exact ih t hrestne

lemma checkStopLossGo_spec (mkId : String → String)
    (stocks : List (String × Stock)) (id : String) (tr : Trade)
    (stock : Stock) (hstock : List.lookup tr.symbol stocks = some stock)
    (hfresh : ∀ s, mkId s ≠ id) :
    ∀ (l : List (String × Trade)) (t : TradeManager),
    (l.map Prod.fst).Nodup → (id, tr) ∈ l →
    List.lookup id t.activeTrades = some tr →
    List.lookup id t.trades = some tr →
    (((tr.quantity : ℚ) * tr.price - (tr.quantity : ℚ) * stock.currentPrice >
        t.maxLossPerTrade →
      List.lookup id (checkStopLossGo mkId stocks l t).2.activeTrades = none ∧
      stopLossSell mkId tr stock ∈ (checkStopLossGo mkId stocks l t).1 ∧
      List.lookup id (checkStopLossGo mkId stocks l t).2.trades =
        some { tr with status := TradeStatus.completed }) ∧
    (¬ ((tr.quantity : ℚ) * tr.price - (tr.quantity : ℚ) * stock.currentPrice >
        t.maxLossPerTrade) →
      List.lookup id (checkStopLossGo mkId stocks l t).2.activeTrades =
        some tr)) := by
  intro l
  induction l with
  | nil => intro t _ hmem; cases hmem
  | cons p rest ih =>
    intro t hnodup hmem hactive htrades
    obtain ⟨id0, tr0⟩ := p
    simp only [List.map_cons, List.nodup_cons] at hnodup
    rcases List.mem_cons.1 hmem with heq | hmem'
    · -- the tracked trade is at the head of the iteration list
      obtain ⟨rfl, rfl⟩ := Prod.mk.inj heq
      have hrestne : ∀ q ∈ rest, q.1 ≠ id := by
        intro q hq hqe
        have h1 : q.1 ∈ rest.map Prod.fst := List.mem_map_of_mem Prod.fst hq
        rw [hqe] at h1
        exact hnodup.1 h1
      rw [checkStopLossGo, hstock]
      dsimp only
      split_ifs with hl
      · have hstable :=
          checkStopLossGo_lookup_stable mkId stocks id hfresh rest
            { t with
              trades := insertA
                (updateStatusA t.trades id TradeStatus.completed)
                (stopLossSell mkId tr stock).id (stopLossSell mkId tr stock),
              activeTrades := eraseA t.activeTrades id } hrestne
        refine ⟨fun _ => ⟨?_, ?_, ?_⟩, fun hno => absurd hl hno⟩
        · rw [hstable.1]
          exact lookup_eraseA_self _ _
        · exact List.mem_cons_self _ _
        · rw [hstable.2]
          dsimp only
          have hsellid : (stopLossSell mkId tr stock).id =
              mkId tr.symbol := rfl
          rw [hsellid, lookup_insertA_ne (Ne.symm (hfresh tr.symbol)),
            lookup_updateStatusA_self, htrades]
          rfl
      · have hstable :=
          checkStopLossGo_lookup_stable mkId stocks id hfresh rest t hrestne
        refine ⟨fun hyes => absurd hyes hl, fun _ => ?_⟩
        rw [hstable.1]
        exact hactive
    · -- the tracked trade is further down the iteration list
      have hid0 : id0 ≠ id := by
        intro hqe
        have h1 : id ∈ rest.map Prod.fst := List.mem_map_of_mem Prod.fst hmem'
        rw [← hqe] at h1
        exact hnodup.1 h1
      rw [checkStopLossGo]
      cases List.lookup tr0.symbol stocks with
      | none => exact ih t hnodup.2 hmem' hactive htrades
      | some stock0 =>
        dsimp only
        split_ifs with hl
        · have hactive' :
              List.lookup id (eraseA t.activeTrades id0) = some tr := by
            rw [lookup_eraseA_ne (Ne.symm hid0)]
            exact hactive
          have htrades' :
              List.lookup id
                (insertA (updateStatusA t.trades id0 TradeStatus.completed)
                  (stopLossSell mkId tr0 stock0).id
                  (stopLossSell mkId tr0 stock0)) =
                some tr := by
            have hsellid : (stopLossSell mkId tr0 stock0).id =
                mkId tr0.symbol := rfl
            rw [hsellid, lookup_insertA_ne (Ne.symm (hfresh tr0.symbol)),
              lookup_updateStatusA_ne (Ne.symm hid0)]
            exact htrades
          have hres := ih
            { t with
              trades := insertA
                (updateStatusA t.trades id0 TradeStatus.completed)
                (stopLossSell mkId tr0 stock0).id
                (stopLossSell mkId tr0 stock0),
              activeTrades := eraseA t.activeTrades id0 }
            hnodup.2 hmem' hactive' htrades'
          refine ⟨fun hyes => ?_, fun hno => ?_⟩
          · obtain ⟨h1, h2, h3⟩ := hres.1 hyes
            exact ⟨h1, List.mem_cons_of_mem _ h2, h3⟩
          · exact hres.2 hno
        · exact ih t hnodup.2 hmem' hactive htrades

/-- C3: `CheckStopLoss` closes an active trade whose symbol has a live
price iff its unrealized loss `(entryPrice - currentPrice) × quantity`
STRICTLY exceeds `maxLossPerTrade`: on closing, the trade leaves the active
map, a sell at the current price is emitted among the returned closed
trades, and the original trade is marked COMPLETED in the trades map; at a
loss exactly equal to the threshold (and below) the trade stays in the
active map unchanged.  (Hypotheses: the maps are well-formed Go maps —
duplicate-free keys — and the freshly generated sell ids differ from the
existing trade id.) -/
theorem c3_stop_loss_close_iff (t : TradeManager)
    (stocks : List (String × Stock)) (mkId : String → String) (id : String)
    (tr : Trade) (stock : Stock)
    (hkeys : (t.activeTrades.map Prod.fst).Nodup)
    (hmem : (id, tr) ∈ t.activeTrades)
    (hstock : List.lookup tr.symbol stocks = some stock)
    (htrades : List.lookup id t.trades = some tr)
    (hfresh : ∀ s, mkId s ≠ id) :
    (((tr.quantity : ℚ) * tr.price - (tr.quantity : ℚ) * stock.currentPrice >
        t.maxLossPerTrade →
      List.lookup id (checkStopLoss t stocks mkId).2.activeTrades = none ∧
      stopLossSell mkId tr stock ∈ (checkStopLoss t stocks mkId).1 ∧
      List.lookup id (checkStopLoss t stocks mkId).2.trades =
        some { tr with status := TradeStatus.completed }) ∧
    (¬ ((tr.quantity : ℚ) * tr.price - (tr.quantity : ℚ) * stock.currentPrice >
        t.maxLossPerTrade) →
      List.lookup id (checkStopLoss t stocks mkId).2.activeTrades =
        some tr)) :=
  checkStopLossGo_spec mkId stocks id tr stock hstock hfresh
    t.activeTrades t hkeys hmem (lookup_of_mem_nodup hkeys hmem) htrades

/-- Witness for `c3_stop_loss_close_iff` on a concrete position of 5 shares
bought at 20 with the price now 17 and a 10-dollar loss limit: the loss of
15 exceeds 10, so the position is closed. -/
theorem c3_stop_loss_close_iff_witness :
    List.lookup "T1"
      (checkStopLoss
        ⟨[("T1", ⟨"T1", "AAPL", 5, 20, TradeSignal.buy,
            TradeStatus.executed, "r"⟩)],
         [("T1", ⟨"T1", "AAPL", 5, 20, TradeSignal.buy,
            TradeStatus.executed, "r"⟩)], 100, 10⟩
        [("AAPL", ⟨"AAPL", 17⟩)] (fun _ => "SL1")).2.activeTrades = none ∧
    stopLossSell (fun _ => "SL1")
        ⟨"T1", "AAPL", 5, 20, TradeSignal.buy, TradeStatus.executed, "r"⟩
        ⟨"AAPL", 17⟩ ∈
      (checkStopLoss
        ⟨[("T1", ⟨"T1", "AAPL", 5, 20, TradeSignal.buy,
            TradeStatus.executed, "r"⟩)],
         [("T1", ⟨"T1", "AAPL", 5, 20, TradeSignal.buy,
            TradeStatus.executed, "r"⟩)], 100, 10⟩
        [("AAPL", ⟨"AAPL", 17⟩)] (fun _ => "SL1")).1 ∧
    List.lookup "T1"
      (checkStopLoss
        ⟨[("T1", ⟨"T1", "AAPL", 5, 20, TradeSignal.buy,
            TradeStatus.executed, "r"⟩)],
         [("T1", ⟨"T1", "AAPL", 5, 20, TradeSignal.buy,
            TradeStatus.executed, "r"⟩)], 100, 10⟩
        [("AAPL", ⟨"AAPL", 17⟩)] (fun _ => "SL1")).2.trades =
      some { (⟨"T1", "AAPL", 5, 20, TradeSignal.buy, TradeStatus.executed,
        "r"⟩ : Trade) with status := TradeStatus.completed } :=
  (c3_stop_loss_close_iff
    ⟨[("T1", ⟨"T1", "AAPL", 5, 20, TradeSignal.buy, TradeStatus.executed,
        "r"⟩)],
     [("T1", ⟨"T1", "AAPL", 5, 20, TradeSignal.buy, TradeStatus.executed,
        "r"⟩)], 100, 10⟩
    [("AAPL", ⟨"AAPL", 17⟩)] (fun _ => "SL1") "T1"
    ⟨"T1", "AAPL", 5, 20, TradeSignal.buy, TradeStatus.executed, "r"⟩
    ⟨"AAPL", 17⟩ (by with_unfolding_all decide)
    (by with_unfolding_all decide) (by with_unfolding_all decide)
    (by with_unfolding_all decide)
    (fun _ => (by decide : ("SL1" : String) ≠ "T1"))).1
    (by with_unfolding_all decide)
